import Mathlib

/-!
Verification of the decision/aggregation layer of the cervical screening
pipeline: a shallow embedding in Lean 4 of

  * training/cervical_screening/evaluation/metrics.py (MetricsCalculator)
  * training/cervical_screening/evaluation/slide_aggregator.py (SlideAggregator)
  * training/cervical_screening/evaluation/predictor.py (ImprovedPredictor)
  * training/cervical_screening/evaluation/tta_evaluator.py (TTAEvaluator)

Numeric values are embedded as rationals; Python dicts and Counters are
embedded as association lists with the source's first-match/default
semantics.  File-path, printing and I/O-only fields are omitted.
-/

/-- An axis-aligned box, the [x1, y1, x2, y2] layout used throughout the code. -/
structure Box where
  x1 : ℚ
  y1 : ℚ
  x2 : ℚ
  y2 : ℚ
deriving DecidableEq, Repr

/-- MetricsCalculator._calculate_iou: intersection-over-union of two boxes. -/
def calculate_iou (box1 box2 : Box) : ℚ :=
  let inter_x_min := max box1.x1 box2.x1
  let inter_y_min := max box1.y1 box2.y1
  let inter_x_max := min box1.x2 box2.x2
  let inter_y_max := min box1.y2 box2.y2
  if inter_x_max < inter_x_min ∨ inter_y_max < inter_y_min then 0
  else
    let inter_area := (inter_x_max - inter_x_min) * (inter_y_max - inter_y_min)
    let box1_area := (box1.x2 - box1.x1) * (box1.y2 - box1.y1)
    let box2_area := (box2.x2 - box2.x1) * (box2.y2 - box2.y1)
    let union_area := box1_area + box2_area - inter_area
    if 0 < union_area then inter_area / union_area else 0

/-- Counter.get(key, 0): value of the first binding of the key, 0 if absent. -/
def getCount : List (String × ℕ) → String → ℕ
  | [], _ => 0
  | (k, v) :: rest, key => if k = key then v else getCount rest key

/-- count / total_cells * 100 guarded by the source's `if total_cells > 0 else 0`. -/
def pct_of (count total : ℕ) : ℚ :=
  if 0 < total then (count : ℚ) / (total : ℚ) * 100 else 0

/-- SlideAggregator._apply_aggregation_rules: the ordered clinical rule
cascade mapping cell counts to a (diagnosis, confidence-percentage) pair.
Note the baseline count is read under the key
"Negative for intraepithelial lesion". -/
def apply_aggregation_rules (cell_counts : List (String × ℕ)) (total_cells : ℕ) :
    String × ℚ :=
  let scc_count := getCount cell_counts "SCC"
  let hsil_count := getCount cell_counts "HSIL"
  let asch_count := getCount cell_counts "ASC-H"
  let lsil_count := getCount cell_counts "LSIL"
  let ascus_count := getCount cell_counts "ASC-US"
  let nilm_count := getCount cell_counts "Negative for intraepithelial lesion"
  let scc_pct := pct_of scc_count total_cells
  let hsil_pct := pct_of hsil_count total_cells
  let asch_pct := pct_of asch_count total_cells
  let lsil_pct := pct_of lsil_count total_cells
  let ascus_pct := pct_of ascus_count total_cells
  let nilm_pct := pct_of nilm_count total_cells
  if 0 < scc_count then ("SCC", scc_pct)
  else if 10 < hsil_count ∨ 1 < hsil_pct then ("HSIL", hsil_pct)
  else if 15 < asch_count ∨ 2 < asch_pct then ("ASC-H", asch_pct)
  else if 5 < lsil_count ∨ 2 < lsil_pct then ("LSIL", lsil_pct)
  else if 10 < ascus_count ∨ 3 < ascus_pct then ("ASC-US", ascus_pct)
  else ("NILM", nilm_pct)

/-- The spec's rule cascade, written as an explicit ordered list of
(predicate, result) rows; percentages are 100 * count / total.  The key the
baseline (NILM) count is read under is a parameter, so that the claimed
key "NILM" and the code's key can be compared. -/
def spec_rule_rows (cell_counts : List (String × ℕ)) (total_cells : ℕ) :
    List (Bool × String × ℚ) :=
  let cnt := fun k => getCount cell_counts k
  let pct := fun k => 100 * ((cnt k : ℚ)) / (total_cells : ℚ)
  [ (decide (0 < cnt "SCC"), ("SCC", pct "SCC")),
    (decide (10 < cnt "HSIL") || decide (1 < pct "HSIL"), ("HSIL", pct "HSIL")),
    (decide (15 < cnt "ASC-H") || decide (2 < pct "ASC-H"), ("ASC-H", pct "ASC-H")),
    (decide (5 < cnt "LSIL") || decide (2 < pct "LSIL"), ("LSIL", pct "LSIL")),
    (decide (10 < cnt "ASC-US") || decide (3 < pct "ASC-US"), ("ASC-US", pct "ASC-US")) ]

/-- First row whose predicate holds, otherwise the default. -/
def first_match : List (Bool × String × ℚ) → (String × ℚ) → String × ℚ
  | [], dflt => dflt
  | (b, r) :: rest, dflt => if b then r else first_match rest dflt

/-- The spec's cascade with the baseline count read under `baseline_key`. -/
def spec_cascade (baseline_key : String) (cell_counts : List (String × ℕ))
    (total_cells : ℕ) : String × ℚ :=
  first_match (spec_rule_rows cell_counts total_cells)
    ("NILM", 100 * ((getCount cell_counts baseline_key : ℚ)) / (total_cells : ℚ))

/-- One detection handed to the slide aggregator by the model. -/
structure CellDetection where
  class_id : ℕ
  confidence : ℚ
  box : Box
deriving DecidableEq, Repr

/-- The slide-level result (file-path fields omitted). -/
structure SlideResult where
  total_cells : ℕ
  cell_counts : List (String × ℕ)
  cell_percentages : List (String × ℚ)
  slide_diagnosis : String
  diagnosis_confidence : ℚ
  avg_confidence : ℚ
deriving DecidableEq, Repr

/-- Counter update: increment the binding of the key, appending it if new. -/
def bump : List (String × ℕ) → String → List (String × ℕ)
  | [], k => [(k, 1)]
  | (k, v) :: rest, key => if k = key then (k, v + 1) :: rest else (k, v) :: bump rest key

/-- Counter over a list of names, in iteration order. -/
def tally (names : List String) : List (String × ℕ) :=
  names.foldl bump []

/-- Sum of a counter's values. -/
def sumValues (m : List (String × ℕ)) : ℕ :=
  (m.map Prod.snd).sum

/-- Arithmetic mean of a list of rationals (sum / length). -/
def listMean (l : List ℚ) : ℚ :=
  l.sum / (l.length : ℚ)

/-- class_map.get(class_id, "Unknown_<id>"). -/
def slide_class_name (class_names : List String) (class_id : ℕ) : String :=
  (class_names.get? class_id).getD ("Unknown_" ++ toString class_id)

/-- SlideAggregator.aggregate_slide on the model's detections for one image:
tallies cells per class name, derives percentages and applies the clinical
rules; an image with no detections yields the INSUFFICIENT result. -/
def aggregate_slide (class_names : List String) (detections : List CellDetection) :
    SlideResult :=
  if detections.length = 0 then
    { total_cells := 0
      cell_counts := []
      cell_percentages := []
      slide_diagnosis := "INSUFFICIENT"
      diagnosis_confidence := 0
      avg_confidence := 0 }
  else
    let cell_counts := tally (detections.map (fun d => slide_class_name class_names d.class_id))
    let total_cells := sumValues cell_counts
    let cell_percentages :=
      cell_counts.map (fun p => (p.1, (p.2 : ℚ) / (total_cells : ℚ) * 100))
    let diag := apply_aggregation_rules cell_counts total_cells
    { total_cells := total_cells
      cell_counts := cell_counts
      cell_percentages := cell_percentages
      slide_diagnosis := diag.1
      diagnosis_confidence := diag.2
      avg_confidence := listMean (detections.map (fun d => d.confidence)) }

/-- One row of the TTA comparison table produced per image; `slowdown` is the
time_ratio column of the source (tta_time / regular_time). -/
structure TTAComparison where
  regular_boxes : ℕ
  regular_time : ℚ
  tta_boxes : ℚ
  tta_time : ℚ
  slowdown : ℚ
  detection_change_pct : ℚ
deriving DecidableEq, Repr

/-- The recommendation block of TTAEvaluator.generate_summary (the free-text
reasoning strings are omitted). -/
structure TTARecommendation where
  speed_assessment : String
  recommendation : String
deriving DecidableEq, Repr

/-- The summary dict of TTAEvaluator.generate_summary. -/
structure TTASummary where
  num_images : ℕ
  total_regular_time : ℚ
  total_tta_time : ℚ
  avg_slowdown : ℚ
  total_regular_boxes : ℕ
  total_tta_boxes : ℚ
  avg_detection_change : ℚ
  recommendation : TTARecommendation
deriving DecidableEq, Repr

/-- TTAEvaluator.generate_summary: batch statistics plus the speed-based
recommendation (avg_slowdown is the mean of the time_ratio column). -/
def tta_generate_summary (results : List TTAComparison) : TTASummary :=
  let avg_slowdown := listMean (results.map (fun r => r.slowdown))
  let recommendation :=
    if 3.5 < avg_slowdown then
      ({ speed_assessment := "VERY SLOW", recommendation := "NOT RECOMMENDED" } :
        TTARecommendation)
    else if 2.5 < avg_slowdown then
      { speed_assessment := "SLOW", recommendation := "USE ONLY FOR BATCH PROCESSING" }
    else
      { speed_assessment := "MODERATE", recommendation := "CONSIDER FOR CRITICAL CASES" }
  { num_images := results.length
    total_regular_time := (results.map (fun r => r.regular_time)).sum
    total_tta_time := (results.map (fun r => r.tta_time)).sum
    avg_slowdown := avg_slowdown
    total_regular_boxes := (results.map (fun r => r.regular_boxes)).sum
    total_tta_boxes := (results.map (fun r => r.tta_boxes)).sum
    avg_detection_change := listMean (results.map (fun r => r.detection_change_pct))
    recommendation := recommendation }

/-- One raw box as exposed by the detector wrapper: objectness (`box.conf`),
the full data row (4 box coordinates, then objectness, then the class-score
tail), the fallback class (`box.cls`) and the pixel box (`box.xyxy`). -/
structure RawBox where
  conf : ℚ
  data : List ℚ
  cls : ℕ
  xyxy : Box
deriving DecidableEq, Repr

/-- TrainingConfig as consumed by ImprovedPredictor. -/
structure PredictorConfig where
  class_names : List String
  objectness_threshold : ℚ
  per_class_thresholds : List (String × ℚ)
deriving DecidableEq, Repr

/-- One decided detection from ImprovedPredictor.predict. -/
structure Detection where
  box : Box
  objectness : ℚ
  class_id : ℕ
  class_name : String
  confidence : ℚ
  passes_threshold : Bool
  threshold_used : ℚ
deriving DecidableEq, Repr

/-- The result dict of ImprovedPredictor.predict (image_path omitted). -/
structure PredictResult where
  detections : List Detection
  total_boxes : ℕ
  accepted : ℕ
deriving DecidableEq, Repr

/-- per_class_thresholds.get(class_name, 0.3): first binding, default 0.30. -/
def getThreshold : List (String × ℚ) → String → ℚ
  | [], _ => 3 / 10
  | (k, v) :: rest, key => if k = key then v else getThreshold rest key

/-- np.argmax on the tail of a list, tracking the running best. -/
def argmax_from : ℕ → ℕ → ℚ → List ℚ → ℕ
  | _, bi, _, [] => bi
  | i, bi, bv, v :: rest =>
    if bv < v then argmax_from (i + 1) i v rest else argmax_from (i + 1) bi bv rest

/-- np.argmax: index of the first occurrence of the maximum (0 on []). -/
def np_argmax : List ℚ → ℕ
  | [] => 0
  | v :: rest => argmax_from 1 0 v rest

/-- The class name used by the predictor: the class_names entry when the id is
in range, otherwise the synthetic "class_<id>". -/
def predictor_class_name (class_names : List String) (class_id : ℕ) : String :=
  if class_id < class_names.length then class_names.getD class_id ""
  else "class_" ++ toString class_id

/-- The per-box body of ImprovedPredictor.predict for a box that passed the
objectness gate.  `softmax` abstracts the floating-point softmax
normalization (torch.nn.functional.softmax); the source guarantees it is
applied to the class-score tail `data[5:]` and its arg-max entry is read back
as the confidence. -/
def decide_box (cfg : PredictorConfig) (softmax : List ℚ → List ℚ) (b : RawBox) :
    Detection :=
  let idprob : ℕ × ℚ :=
    if 5 < b.data.length then
      let class_scores := b.data.drop 5
      let class_probs := softmax class_scores
      let class_id := np_argmax class_probs
      (class_id, class_probs.getD class_id 0)
    else
      (b.cls, b.conf)
  let class_id := idprob.1
  let class_prob := idprob.2
  let class_name := predictor_class_name cfg.class_names class_id
  let class_threshold := getThreshold cfg.per_class_thresholds class_name
  { box := b.xyxy
    objectness := b.conf
    class_id := class_id
    class_name := class_name
    confidence := class_prob
    passes_threshold := decide (class_threshold ≤ class_prob)
    threshold_used := class_threshold }

/-- ImprovedPredictor.predict over the raw boxes of one image: boxes below
the objectness threshold are skipped (`continue`), every other box is decided;
the empty-boxes early return of the source coincides with the loop on []. -/
def predict (cfg : PredictorConfig) (softmax : List ℚ → List ℚ)
    (boxes : List RawBox) : PredictResult :=
  let detections := boxes.filterMap (fun b =>
    if b.conf < cfg.objectness_threshold then none
    else some (decide_box cfg softmax b))
  { detections := detections
    total_boxes := boxes.length
    accepted := (detections.filter (fun d => d.passes_threshold)).length }

/-- Per-image predictions: the parallel lists of the predictions dict. -/
structure ImagePred where
  boxes : List Box
  classes : List ℕ
  scores : List ℚ
deriving DecidableEq, Repr

/-- Per-image ground truth: the parallel lists of the ground_truth dict. -/
structure ImageGT where
  boxes : List Box
  classes : List ℕ
deriving DecidableEq, Repr

/-- The inner search of the matching loops: over enumerate(zip(gt_boxes,
gt_classes)), skipping already-matched indices and class mismatches, keep the
strictly-best IoU and its index, starting from (0, -1). -/
def best_match_step (pred_box : Box) (pred_class : ℕ) (matched : List ℕ)
    (best : ℚ × ℤ) (e : ℕ × Box × ℕ) : ℚ × ℤ :=
  if e.1 ∈ matched then best
  else if pred_class ≠ e.2.2 then best
  else
    let iou := calculate_iou pred_box e.2.1
    if best.1 < iou then (iou, (e.1 : ℤ)) else best

def best_match (pred_box : Box) (pred_class : ℕ) (gts : List (Box × ℕ))
    (matched : List ℕ) : ℚ × ℤ :=
  gts.enum.foldl (best_match_step pred_box pred_class matched) (0, -1)

/-- The decision for one prediction: Some matched gt index when
best_iou >= iou_threshold and best_gt_idx != -1, else None (a false
positive). -/
def match_step (iou_threshold : ℚ) (gts : List (Box × ℕ)) (matched : List ℕ)
    (pred_box : Box) (pred_class : ℕ) : Option ℕ :=
  let best := best_match pred_box pred_class gts matched
  if iou_threshold ≤ best.1 ∧ best.2 ≠ -1 then some best.2.toNat else none

/-- The per-image greedy matching loop of calculate_detection_metrics: one
outcome per prediction, in processing order; a match adds its gt index to
the matched set for the remaining predictions. -/
def match_preds (iou_threshold : ℚ) (gts : List (Box × ℕ)) :
    List (Box × ℕ) → List ℕ → List (Option ℕ)
  | [], _ => []
  | (pb, pc) :: rest, matched =>
    match match_step iou_threshold gts matched pb pc with
    | some j => some j :: match_preds iou_threshold gts rest (j :: matched)
    | none => none :: match_preds iou_threshold gts rest matched

/-- Stable descending insertion of an index by its score. -/
def insert_by_score (scores : List ℚ) (i : ℕ) : List ℕ → List ℕ
  | [] => [i]
  | j :: rest =>
    if scores.getD j 0 ≤ scores.getD i 0 then i :: j :: rest
    else j :: insert_by_score scores i rest

/-- np.argsort(pred_scores)[::-1]: prediction indices in descending score
order (ties resolved by insertion order; np.argsort leaves ties
unspecified). -/
def argsort_desc (scores : List ℚ) : List ℕ :=
  (List.range scores.length).foldr (insert_by_score scores) []

/-- The (pred_boxes[idx], pred_classes[idx]) pairs visited by the matching
loop, in score-sorted order. -/
def sorted_pred_list (pred : ImagePred) : List (Box × ℕ) :=
  (argsort_desc pred.scores).map
    (fun i => (pred.boxes.getD i (Box.mk 0 0 0 0), pred.classes.getD i 0))

/-- The outcome list of the matching loop for one image (initial matched set
empty). -/
def image_outcomes (iou_threshold : ℚ) (pred : ImagePred) (gt : ImageGT) :
    List (Option ℕ) :=
  match_preds iou_threshold (gt.boxes.zip gt.classes) (sorted_pred_list pred) []

/-- The matched_gt set at the end of one image's matching loop. -/
def image_matched (iou_threshold : ℚ) (pred : ImagePred) (gt : ImageGT) : List ℕ :=
  (image_outcomes iou_threshold pred gt).filterMap id

/-- tp[c] contributions of one image: predictions of class c whose outcome
was a match. -/
def image_tp (iou_threshold : ℚ) (pred : ImagePred) (gt : ImageGT) (c : ℕ) : ℕ :=
  (((sorted_pred_list pred).zip (image_outcomes iou_threshold pred gt)).filter
    (fun e => decide (e.1.2 = c) && e.2.isSome)).length

/-- fp[c] contributions of one image: predictions of class c whose outcome
was no match. -/
def image_fp (iou_threshold : ℚ) (pred : ImagePred) (gt : ImageGT) (c : ℕ) : ℕ :=
  (((sorted_pred_list pred).zip (image_outcomes iou_threshold pred gt)).filter
    (fun e => decide (e.1.2 = c) && e.2.isNone)).length

/-- fn[c] contributions of one image: the loop over enumerate(gt_classes)
counting indices never matched. -/
def image_fn (iou_threshold : ℚ) (pred : ImagePred) (gt : ImageGT) (c : ℕ) : ℕ :=
  (gt.classes.enum.filter
    (fun e => decide (e.1 ∉ image_matched iou_threshold pred gt) && decide (e.2 = c))).length

/-- The tp/fp/fn defaultdicts of calculate_detection_metrics after the loop
over zip(predictions, ground_truth): per-image contributions summed per
class. -/
def batch_step (iou_threshold : ℚ) (acc : (ℕ → ℕ) × (ℕ → ℕ) × (ℕ → ℕ))
    (pg : ImagePred × ImageGT) : (ℕ → ℕ) × (ℕ → ℕ) × (ℕ → ℕ) :=
  (fun c => acc.1 c + image_tp iou_threshold pg.1 pg.2 c,
   fun c => acc.2.1 c + image_fp iou_threshold pg.1 pg.2 c,
   fun c => acc.2.2 c + image_fn iou_threshold pg.1 pg.2 c)

def batch_counters (iou_threshold : ℚ) (predictions : List ImagePred)
    (ground_truth : List ImageGT) : (ℕ → ℕ) × (ℕ → ℕ) × (ℕ → ℕ) :=
  (predictions.zip ground_truth).foldl (batch_step iou_threshold)
    (fun _ => 0, fun _ => 0, fun _ => 0)

/-- The per-class record of calculate_detection_metrics. -/
structure ClassMetrics where
  precision : ℚ
  recall' : ℚ
  f1 : ℚ
  tp : ℕ
  fp : ℕ
  fn : ℕ
deriving DecidableEq, Repr

/-- MetricsCalculator.calculate_detection_metrics: greedy matching per image
then per-class precision / recall / F1 with zero-denominator guards. -/
def calculate_detection_metrics (class_names : List String)
    (predictions : List ImagePred) (ground_truth : List ImageGT)
    (iou_threshold : ℚ) : List (String × ClassMetrics) :=
  let counters := batch_counters iou_threshold predictions ground_truth
  class_names.enum.map (fun e =>
    let tp_count := counters.1 e.1
    let fp_count := counters.2.1 e.1
    let fn_count := counters.2.2 e.1
    let precision :=
      if 0 < tp_count + fp_count then (tp_count : ℚ) / ((tp_count : ℚ) + (fp_count : ℚ))
      else 0
    let recall' :=
      if 0 < tp_count + fn_count then (tp_count : ℚ) / ((tp_count : ℚ) + (fn_count : ℚ))
      else 0
    let f1 :=
      if 0 < precision + recall' then 2 * (precision * recall') / (precision + recall')
      else 0
    (e.2, { precision := precision, recall' := recall', f1 := f1,
            tp := tp_count, fp := fp_count, fn := fn_count }))

/-- Total ground-truth instances of one class across the batch (the total_gt
count of _calculate_ap_for_class). -/
def total_gt_count (ground_truth : List ImageGT) (class_id : ℕ) : ℕ :=
  (ground_truth.map (fun g => (g.classes.filter (fun c => decide (c = class_id))).length)).sum

/-- The pooled predictions of one class: (image_id, box, score) triples in
image order (the all_predictions list of _calculate_ap_for_class). -/
def preds_for_class (predictions : List ImagePred) (class_id : ℕ) :
    List (ℕ × Box × ℚ) :=
  (predictions.enum.map (fun e =>
    ((e.2.boxes.zip (e.2.classes.zip e.2.scores)).filterMap (fun t =>
      if t.2.1 = class_id then some (e.1, t.1, t.2.2) else none)))).flatten

/-- Stable descending insertion of a pooled prediction by its score. -/
def insert_by_conf (p : ℕ × Box × ℚ) : List (ℕ × Box × ℚ) → List (ℕ × Box × ℚ)
  | [] => [p]
  | q :: rest => if q.2.2 ≤ p.2.2 then p :: q :: rest else q :: insert_by_conf p rest

/-- all_predictions.sort(key=score, reverse=True). -/
def sort_by_conf (l : List (ℕ × Box × ℚ)) : List (ℕ × Box × ℚ) :=
  l.foldr insert_by_conf []

/-- The tp/fp sweep of _calculate_ap_for_class: walking the pooled sorted
predictions with per-image matched sets (here a list of (image, gt-index)
pairs), emitting the running (precision, recall) points. -/
def ap_sweep (iou_threshold : ℚ) (class_id : ℕ) (ground_truth : List ImageGT)
    (total_gt : ℕ) :
    List (ℕ × Box × ℚ) → List (ℕ × ℕ) → ℕ → ℕ → List (ℚ × ℚ)
  | [], _, _, _ => []
  | p :: rest, matched, tp, fp =>
    let g := ground_truth.getD p.1 (ImageGT.mk [] [])
    let m_img := matched.filterMap (fun e => if e.1 = p.1 then some e.2 else none)
    let best := best_match p.2.1 class_id (g.boxes.zip g.classes) m_img
    if iou_threshold ≤ best.1 ∧ best.2 ≠ -1 then
      ((tp + 1 : ℚ) / ((tp + 1 : ℚ) + (fp : ℚ)), (tp + 1 : ℚ) / (total_gt : ℚ)) ::
        ap_sweep iou_threshold class_id ground_truth total_gt rest
          ((p.1, best.2.toNat) :: matched) (tp + 1) fp
    else
      ((tp : ℚ) / ((tp : ℚ) + (fp + 1 : ℚ)), (tp : ℚ) / (total_gt : ℚ)) ::
        ap_sweep iou_threshold class_id ground_truth total_gt rest matched tp (fp + 1)

/-- _calculate_ap_11point over the list of (precision, recall) points:
for each t in {0, 0.1, ..., 1.0} add (max precision over points with
recall >= t, 0 if none) / 11. -/
def ap_11point (points : List (ℚ × ℚ)) : ℚ :=
  ((List.range 11).map (fun k : ℕ =>
    (((points.filter (fun e => decide ((k : ℚ) / 10 ≤ e.2))).map Prod.fst).max?.getD 0)
      / 11)).sum

/-- MetricsCalculator._calculate_ap_for_class: 0 when the class has no pooled
predictions or no ground-truth instances, otherwise the 11-point
interpolated AP of the sweep. -/
def calculate_ap_for_class (predictions : List ImagePred)
    (ground_truth : List ImageGT) (class_id : ℕ) (iou_threshold : ℚ) : ℚ :=
  let all_predictions := preds_for_class predictions class_id
  if all_predictions.length = 0 then 0
  else
    let total_gt := total_gt_count ground_truth class_id
    if total_gt = 0 then 0
    else
      ap_11point
        (ap_sweep iou_threshold class_id ground_truth total_gt
          (sort_by_conf all_predictions) [] 0 0)

/-- MetricsCalculator.calculate_map, mAP50 field: for each IoU threshold the
np.mean of AP over ALL class ids in range(num_classes); the first entry is
returned (0 if there is no threshold). -/
def calculate_map (num_classes : ℕ) (predictions : List ImagePred)
    (ground_truth : List ImageGT) (iou_thresholds : List ℚ) : ℚ :=
  let aps := iou_thresholds.map (fun th =>
    listMean ((List.range num_classes).map (fun cid =>
      calculate_ap_for_class predictions ground_truth cid th)))
  aps.headD 0

/-- Modelled from the spec: the claimed mAP, the mean of per-class AP taken
only over the classes with at least one ground-truth instance in the batch. -/
def map_over_gt_classes (num_classes : ℕ) (predictions : List ImagePred)
    (ground_truth : List ImageGT) (iou_threshold : ℚ) : ℚ :=
  listMean (((List.range num_classes).filter
      (fun cid => decide (0 < total_gt_count ground_truth cid))).map
    (fun cid => calculate_ap_for_class predictions ground_truth cid iou_threshold))

/-! ## Theorems -/

section IoUFacts

lemma calculate_iou_nonneg (a b : Box) : 0 ≤ calculate_iou a b := by
  simp only [calculate_iou]
  split_ifs with h1 h2
  · exact le_refl 0
  · push_neg at h1
    exact div_nonneg
      (mul_nonneg (sub_nonneg.2 h1.1) (sub_nonneg.2 h1.2)) (le_of_lt h2)
  · exact le_refl 0

end IoUFacts

lemma calculate_iou_comm (a b : Box) : calculate_iou a b = calculate_iou b a := by
  simp only [calculate_iou]
  rw [max_comm b.x1 a.x1, max_comm b.y1 a.y1, min_comm b.x2 a.x2, min_comm b.y2 a.y2,
    add_comm ((b.x2 - b.x1) * (b.y2 - b.y1)) ((a.x2 - a.x1) * (a.y2 - a.y1))]

lemma calculate_iou_self (a : Box) (hx : a.x1 < a.x2) (hy : a.y1 < a.y2) :
    calculate_iou a a = 1 := by
  simp only [calculate_iou, max_self, min_self]
  have harea : 0 < (a.x2 - a.x1) * (a.y2 - a.y1) :=
    mul_pos (sub_pos.2 hx) (sub_pos.2 hy)
  rw [if_neg (by push_neg; constructor <;> linarith)]
  have hunion : (a.x2 - a.x1) * (a.y2 - a.y1) + (a.x2 - a.x1) * (a.y2 - a.y1) -
      (a.x2 - a.x1) * (a.y2 - a.y1) = (a.x2 - a.x1) * (a.y2 - a.y1) := by ring
  rw [hunion, if_pos harea, div_self (ne_of_gt harea)]

lemma calculate_iou_no_overlap (a b : Box)
    (h : min a.x2 b.x2 ≤ max a.x1 b.x1 ∨ min a.y2 b.y2 ≤ max a.y1 b.y1) :
    calculate_iou a b = 0 := by
  simp only [calculate_iou]
  split_ifs with h1 h2
  · rfl
  · push_neg at h1
    rcases h with h | h
    · have hx : min a.x2 b.x2 = max a.x1 b.x1 := le_antisymm h h1.1
      rw [hx, sub_self, zero_mul, zero_div]
    · have hy : min a.y2 b.y2 = max a.y1 b.y1 := le_antisymm h h1.2
      rw [hy, sub_self, mul_zero, zero_div]
  · rfl

/-- C7: for boxes with positive area, the IoU computation is symmetric,
equals 1 on identical boxes, vanishes on non-overlapping boxes, and is
never negative. -/
theorem iou_algebraic_properties (a b : Box)
    (ha : a.x1 < a.x2 ∧ a.y1 < a.y2) (hb : b.x1 < b.x2 ∧ b.y1 < b.y2) :
    calculate_iou a b = calculate_iou b a ∧
    calculate_iou a a = 1 ∧
    ((min a.x2 b.x2 ≤ max a.x1 b.x1 ∨ min a.y2 b.y2 ≤ max a.y1 b.y1) →
      calculate_iou a b = 0) ∧
    0 ≤ calculate_iou a b := by
  refine ⟨calculate_iou_comm a b, calculate_iou_self a ha.1 ha.2,
    fun h => calculate_iou_no_overlap a b h, calculate_iou_nonneg a b⟩

/-- C7 witness: the properties instantiated on two concrete disjoint boxes. -/
theorem iou_algebraic_properties_witness :
    calculate_iou (Box.mk 0 0 10 10) (Box.mk 20 0 30 10) =
      calculate_iou (Box.mk 20 0 30 10) (Box.mk 0 0 10 10) ∧
    calculate_iou (Box.mk 0 0 10 10) (Box.mk 0 0 10 10) = 1 ∧
    calculate_iou (Box.mk 0 0 10 10) (Box.mk 20 0 30 10) = 0 ∧
    0 ≤ calculate_iou (Box.mk 0 0 10 10) (Box.mk 20 0 30 10) := by
  obtain ⟨h1, h2, h3, h4⟩ :=
    iou_algebraic_properties (Box.mk 0 0 10 10) (Box.mk 20 0 30 10)
      (by constructor <;> norm_num) (by constructor <;> norm_num)
  exact ⟨h1, h2, h3 (by left; norm_num), h4⟩

lemma tta_rec_eq (l : List TTAComparison) :
    (tta_generate_summary l).recommendation =
    (if 3.5 < (tta_generate_summary l).avg_slowdown then
      TTARecommendation.mk "VERY SLOW" "NOT RECOMMENDED"
    else if 2.5 < (tta_generate_summary l).avg_slowdown then
      TTARecommendation.mk "SLOW" "USE ONLY FOR BATCH PROCESSING"
    else TTARecommendation.mk "MODERATE" "CONSIDER FOR CRITICAL CASES") := rfl

lemma tta_avg_eq (l : List TTAComparison) :
    (tta_generate_summary l).avg_slowdown = listMean (l.map (fun r => r.slowdown)) := rfl

/-- C9: the TTA recommendation is a function of the average time ratio alone,
with the exact policy boundaries: ratio > 3.5 is "NOT RECOMMENDED",
2.5 < ratio <= 3.5 is batch-only, ratio <= 2.5 is consider-for-critical-cases;
in particular an average ratio of 4 is "NOT RECOMMENDED". -/
theorem tta_recommendation_policy (results : List TTAComparison)
    (h : results ≠ []) :
    ((tta_generate_summary results).recommendation.recommendation =
        "NOT RECOMMENDED" ↔ 3.5 < (tta_generate_summary results).avg_slowdown) ∧
    ((tta_generate_summary results).recommendation.recommendation =
        "USE ONLY FOR BATCH PROCESSING" ↔
      2.5 < (tta_generate_summary results).avg_slowdown ∧
        (tta_generate_summary results).avg_slowdown ≤ 3.5) ∧
    ((tta_generate_summary results).recommendation.recommendation =
        "CONSIDER FOR CRITICAL CASES" ↔
      (tta_generate_summary results).avg_slowdown ≤ 2.5) ∧
    (∀ other : List TTAComparison,
      listMean (other.map (fun r => r.slowdown)) =
          listMean (results.map (fun r => r.slowdown)) →
      (tta_generate_summary other).recommendation =
        (tta_generate_summary results).recommendation) ∧
    ((tta_generate_summary results).avg_slowdown = 4 →
      (tta_generate_summary results).recommendation.recommendation =
        "NOT RECOMMENDED") := by
  have hsame : ∀ other : List TTAComparison,
      listMean (other.map (fun r => r.slowdown)) =
        listMean (results.map (fun r => r.slowdown)) →
      (tta_generate_summary other).recommendation =
        (tta_generate_summary results).recommendation := by
    intro other havg
    rw [tta_rec_eq, tta_rec_eq, tta_avg_eq, tta_avg_eq, havg]
  have hlit := tta_rec_eq results
  split_ifs at hlit with h1 h2
  · rw [hlit]
    refine ⟨⟨fun _ => h1, fun _ => rfl⟩, ?_, ?_,
      fun o ho => (hsame o ho).trans hlit, fun _ => rfl⟩
    · exact ⟨fun hf => absurd hf (by decide), fun hc => absurd hc.2 (not_le.2 h1)⟩
    · exact ⟨fun hf => absurd hf (by decide),
        fun hc => absurd h1 (not_lt.2 (le_trans hc (by norm_num)))⟩
  · rw [hlit]
    refine ⟨?_, ⟨fun _ => ⟨h2, le_of_not_lt h1⟩, fun _ => rfl⟩, ?_,
      fun o ho => (hsame o ho).trans hlit, ?_⟩
    · exact ⟨fun hf => absurd hf (by decide), fun hc => absurd hc h1⟩
    · exact ⟨fun hf => absurd hf (by decide), fun hc => absurd h2 (not_lt.2 hc)⟩
    · intro h4
      rw [h4] at h1
      exact absurd (by norm_num : (3.5 : ℚ) < 4) h1
  · rw [hlit]
    refine ⟨?_, ?_, ⟨fun _ => le_of_not_lt h2, fun _ => rfl⟩,
      fun o ho => (hsame o ho).trans hlit, ?_⟩
    · exact ⟨fun hf => absurd hf (by decide), fun hc => absurd hc h1⟩
    · exact ⟨fun hf => absurd hf (by decide), fun hc => absurd hc.1 h2⟩
    · intro h4
      rw [h4] at h2
      exact absurd (by norm_num : (2.5 : ℚ) < 4) h2

/-- C9 witness: the spec's TTA scenario, a single image with regular time 1s,
TTA time 4s, time ratio 4, averages to 4 and is "NOT RECOMMENDED". -/
theorem tta_recommendation_policy_witness :
    (tta_generate_summary [TTAComparison.mk 10 1 10 4 4 0]).avg_slowdown = 4 ∧
    (tta_generate_summary [TTAComparison.mk 10 1 10 4 4 0]).recommendation.recommendation =
      "NOT RECOMMENDED" := by
  have h := tta_recommendation_policy [TTAComparison.mk 10 1 10 4 4 0] (by simp)
  have havg : (tta_generate_summary [TTAComparison.mk 10 1 10 4 4 0]).avg_slowdown = 4 := by
    rw [tta_avg_eq]
    simp [listMean]
  exact ⟨havg, h.2.2.2.2 havg⟩

/-- C1 (amended): for positive totals the code's rule cascade is exactly the
spec's ordered cascade, except that the baseline (otherwise) confidence reads
the cell-count map under the key "Negative for intraepithelial lesion",
not under "NILM". -/
theorem slide_rule_cascade_matches_spec (cell_counts : List (String × ℕ))
    (total_cells : ℕ) (h : 0 < total_cells) :
    apply_aggregation_rules cell_counts total_cells =
    spec_cascade "Negative for intraepithelial lesion" cell_counts total_cells := by
  have hpct : ∀ c : ℕ, pct_of c total_cells = 100 * (c : ℚ) / (total_cells : ℚ) := by
    intro c
    rw [pct_of, if_pos h, div_mul_eq_mul_div, mul_comm]
  simp only [apply_aggregation_rules, spec_cascade, spec_rule_rows, first_match, hpct,
    Bool.or_eq_true, decide_eq_true_eq]

/-- C1 witness: the amended cascade equality at the spec's own SCC scenario. -/
theorem slide_rule_cascade_matches_spec_witness :
    0 < (100 : ℕ) ∧
    apply_aggregation_rules [("SCC", 1), ("NILM", 99)] 100 =
      spec_cascade "Negative for intraepithelial lesion" [("SCC", 1), ("NILM", 99)] 100 :=
  ⟨by decide, slide_rule_cascade_matches_spec [("SCC", 1), ("NILM", 99)] 100 (by decide)⟩

/-- C1 counterexample: on a slide tallied entirely under the class name
"NILM" the code returns confidence 0, while the claimed cascade (baseline
count read under the same name "NILM" used for tallying) returns 100. -/
theorem slide_rules_nilm_key_counterexample :
    apply_aggregation_rules [("NILM", 100)] 100 = ("NILM", 0) ∧
    spec_cascade "NILM" [("NILM", 100)] 100 = ("NILM", 100) ∧
    apply_aggregation_rules [("NILM", 100)] 100 ≠ spec_cascade "NILM" [("NILM", 100)] 100 := by
  have h1 : apply_aggregation_rules [("NILM", 100)] 100 = ("NILM", 0) := by
    simp only [apply_aggregation_rules, getCount, String.reduceEq, reduceIte]
    norm_num [pct_of]
  have h2 : spec_cascade "NILM" [("NILM", 100)] 100 = ("NILM", 100) := by
    simp only [spec_cascade, spec_rule_rows, first_match, getCount, String.reduceEq,
      reduceIte, Bool.or_eq_true, decide_eq_true_eq]
    norm_num
  refine ⟨h1, h2, ?_⟩
  intro hfalse
  rw [h1, h2] at hfalse
  have hsnd := congrArg Prod.snd hfalse
  norm_num at hsnd

lemma sumValues_bump (m : List (String × ℕ)) (k : String) :
    sumValues (bump m k) = sumValues m + 1 := by
  induction m with
  | nil => rfl
  | cons p rest ih =>
    obtain ⟨k1, v⟩ := p
    by_cases hk : k1 = k
    · simp [bump, hk, sumValues]
      omega
    · simp only [bump, if_neg hk]
      simp [sumValues] at ih ⊢
      omega

lemma sumValues_foldl_bump (l : List String) (m : List (String × ℕ)) :
    sumValues (l.foldl bump m) = sumValues m + l.length := by
  induction l generalizing m with
  | nil => simp
  | cons a rest ih =>
    simp only [List.foldl_cons, List.length_cons, ih, sumValues_bump]
    omega

lemma sumValues_tally (l : List String) : sumValues (tally l) = l.length := by
  have h := sumValues_foldl_bump l []
  simpa [tally, sumValues] using h


lemma apply_rules_fst_mem (cell_counts : List (String × ℕ)) (total_cells : ℕ) :
    (apply_aggregation_rules cell_counts total_cells).1 ∈
      (["SCC", "HSIL", "ASC-H", "LSIL", "ASC-US", "NILM"] : List String) := by
  simp only [apply_aggregation_rules]
  split_ifs <;> simp

/-- C6: every slide result satisfies sum(cellCounts.values()) == totalCells;
its diagnosis is INSUFFICIENT exactly when totalCells is 0, with confidence 0
in that case; with a positive total the diagnosis is one of the six clinical
categories. -/
theorem aggregate_slide_invariants (class_names : List String)
    (detections : List CellDetection) :
    sumValues (aggregate_slide class_names detections).cell_counts =
      (aggregate_slide class_names detections).total_cells ∧
    ((aggregate_slide class_names detections).slide_diagnosis = "INSUFFICIENT" ↔
      (aggregate_slide class_names detections).total_cells = 0) ∧
    ((aggregate_slide class_names detections).total_cells = 0 →
      (aggregate_slide class_names detections).diagnosis_confidence = 0) ∧
    (0 < (aggregate_slide class_names detections).total_cells →
      (aggregate_slide class_names detections).slide_diagnosis ∈
        (["SCC", "HSIL", "ASC-H", "LSIL", "ASC-US", "NILM"] : List String)) := by
  by_cases hlen : detections.length = 0
  · simp [aggregate_slide, hlen, sumValues]
  · simp only [aggregate_slide, if_neg hlen]
    have hS : sumValues (tally (detections.map
        (fun d => slide_class_name class_names d.class_id))) = detections.length := by
      rw [sumValues_tally, List.length_map]
    have hmem := apply_rules_fst_mem
      (tally (detections.map (fun d => slide_class_name class_names d.class_id)))
      (sumValues (tally (detections.map (fun d => slide_class_name class_names d.class_id))))
    have hsix : ∀ s ∈ (["SCC", "HSIL", "ASC-H", "LSIL", "ASC-US", "NILM"] : List String),
        s ≠ "INSUFFICIENT" := by decide
    refine ⟨trivial, ⟨fun hd => absurd hd (hsix _ hmem), fun h0 => absurd (hS ▸ h0) hlen⟩,
      fun h0 => absurd (hS ▸ h0) hlen, fun _ => hmem⟩

/-- C6 witness: the invariants instantiated on an empty slide and on a
one-detection slide. -/
theorem aggregate_slide_invariants_witness :
    (aggregate_slide ["NILM"] []).diagnosis_confidence = 0 ∧
    (aggregate_slide ["NILM"] [CellDetection.mk 0 1 (Box.mk 0 0 1 1)]).slide_diagnosis ∈
      (["SCC", "HSIL", "ASC-H", "LSIL", "ASC-US", "NILM"] : List String) := by
  constructor
  · exact (aggregate_slide_invariants ["NILM"] []).2.2.1 rfl
  · exact (aggregate_slide_invariants ["NILM"]
      [CellDetection.mk 0 1 (Box.mk 0 0 1 1)]).2.2.2 (by decide)

lemma getThreshold_eq_lookup (tbl : List (String × ℚ)) (k : String) :
    getThreshold tbl k = (tbl.lookup k).getD (3 / 10) := by
  induction tbl with
  | nil => rfl
  | cons p rest ih =>
    obtain ⟨k1, v⟩ := p
    by_cases hk : k1 = k
    · simp [getThreshold, List.lookup, hk]
    · simp only [getThreshold, if_neg hk, List.lookup,
        show (k == k1) = false from beq_eq_false_iff_ne.2 (fun he => hk he.symm)]
      exact ih

/-- C2: every detection emitted by predict passed the objectness gate; its
threshold_used is the per-class table entry for its class name with default
0.30 when absent; and passes_threshold holds exactly when the confidence
reaches threshold_used, so an accepted detection passed both gates. -/
theorem predictor_decoupling_invariant (cfg : PredictorConfig)
    (softmax : List ℚ → List ℚ) (boxes : List RawBox) (d : Detection)
    (hd : d ∈ (predict cfg softmax boxes).detections) :
    cfg.objectness_threshold ≤ d.objectness ∧
    d.threshold_used = (cfg.per_class_thresholds.lookup d.class_name).getD (3 / 10) ∧
    (d.passes_threshold = true ↔ d.threshold_used ≤ d.confidence) ∧
    (d.passes_threshold = true →
      cfg.objectness_threshold ≤ d.objectness ∧ d.threshold_used ≤ d.confidence) := by
  simp only [predict] at hd
  rcases List.mem_filterMap.1 hd with ⟨b, _hb, hbd⟩
  by_cases hc : b.conf < cfg.objectness_threshold
  · rw [if_pos hc] at hbd
    cases hbd
  · rw [if_neg hc] at hbd
    have hdb : decide_box cfg softmax b = d := Option.some.inj hbd
    subst hdb
    have hobj : cfg.objectness_threshold ≤ (decide_box cfg softmax b).objectness :=
      le_of_not_lt hc
    have hthr : (decide_box cfg softmax b).threshold_used =
        (cfg.per_class_thresholds.lookup (decide_box cfg softmax b).class_name).getD
          (3 / 10) := by
      simp only [decide_box]
      exact getThreshold_eq_lookup _ _
    have hiff : ((decide_box cfg softmax b).passes_threshold = true ↔
        (decide_box cfg softmax b).threshold_used ≤
          (decide_box cfg softmax b).confidence) := by
      simp only [decide_box, decide_eq_true_eq]
    exact ⟨hobj, hthr, hiff, fun hp => ⟨hobj, hiff.1 hp⟩⟩

/-- C2 witness: the invariant on a concrete one-box image. -/
theorem predictor_decoupling_invariant_witness :
    (PredictorConfig.mk ["NILM"] 1 [("NILM", 1)]).objectness_threshold ≤
      (decide_box (PredictorConfig.mk ["NILM"] 1 [("NILM", 1)]) id
        (RawBox.mk 2 [0, 0, 5, 5, 2, 3] 0 (Box.mk 0 0 5 5))).objectness ∧
    ((decide_box (PredictorConfig.mk ["NILM"] 1 [("NILM", 1)]) id
        (RawBox.mk 2 [0, 0, 5, 5, 2, 3] 0 (Box.mk 0 0 5 5))).passes_threshold = true ↔
      (decide_box (PredictorConfig.mk ["NILM"] 1 [("NILM", 1)]) id
        (RawBox.mk 2 [0, 0, 5, 5, 2, 3] 0 (Box.mk 0 0 5 5))).threshold_used ≤
      (decide_box (PredictorConfig.mk ["NILM"] 1 [("NILM", 1)]) id
        (RawBox.mk 2 [0, 0, 5, 5, 2, 3] 0 (Box.mk 0 0 5 5))).confidence) := by
  have hmem : decide_box (PredictorConfig.mk ["NILM"] 1 [("NILM", 1)]) id
      (RawBox.mk 2 [0, 0, 5, 5, 2, 3] 0 (Box.mk 0 0 5 5)) ∈
      (predict (PredictorConfig.mk ["NILM"] 1 [("NILM", 1)]) id
        [RawBox.mk 2 [0, 0, 5, 5, 2, 3] 0 (Box.mk 0 0 5 5)]).detections := by
    have hdet : (predict (PredictorConfig.mk ["NILM"] 1 [("NILM", 1)]) id
        [RawBox.mk 2 [0, 0, 5, 5, 2, 3] 0 (Box.mk 0 0 5 5)]).detections =
        [decide_box (PredictorConfig.mk ["NILM"] 1 [("NILM", 1)]) id
          (RawBox.mk 2 [0, 0, 5, 5, 2, 3] 0 (Box.mk 0 0 5 5))] := by
      simp only [predict, List.filterMap_cons, List.filterMap_nil]
      rw [if_neg (by norm_num : ¬(2 : ℚ) < 1)]
    rw [hdet]
    exact List.mem_singleton.2 rfl
  have h := predictor_decoupling_invariant (PredictorConfig.mk ["NILM"] 1 [("NILM", 1)])
    id [RawBox.mk 2 [0, 0, 5, 5, 2, 3] 0 (Box.mk 0 0 5 5)] _ hmem
  exact ⟨h.1, h.2.2.1⟩

/-- C3 (amended): no shape check exists; every raw box passing the
objectness gate becomes exactly one ClassDecision, whatever the length of
its class-score tail, and processing continues over the remaining boxes. -/
theorem predict_never_rejects_on_shape (cfg : PredictorConfig)
    (softmax : List ℚ → List ℚ) (boxes : List RawBox) :
    (predict cfg softmax boxes).detections.length =
      (boxes.filter (fun b => decide (cfg.objectness_threshold ≤ b.conf))).length ∧
    (∀ b ∈ boxes, cfg.objectness_threshold ≤ b.conf →
      decide_box cfg softmax b ∈ (predict cfg softmax boxes).detections) := by
  simp only [predict]
  constructor
  · induction boxes with
    | nil => rfl
    | cons b rest ih =>
      by_cases hc : b.conf < cfg.objectness_threshold
      · rw [List.filterMap_cons, if_pos hc, List.filter_cons,
          if_neg (by simpa using not_le.2 hc)]
        exact ih
      · rw [List.filterMap_cons, if_neg hc, List.filter_cons,
          if_pos (by simpa using le_of_not_lt hc)]
        simpa using ih
  · intro b hb hconf
    exact List.mem_filterMap.2 ⟨b, hb, by rw [if_neg (not_lt.2 hconf)]⟩

/-- C3 witness: the amended behavior on a malformed one-box image (three
class scores against six known classes). -/
theorem predict_never_rejects_on_shape_witness :
    decide_box (PredictorConfig.mk ["NILM", "ASC-US", "ASC-H", "LSIL", "HSIL", "SCC"] 1
        [("NILM", 1)]) id (RawBox.mk 2 [0, 0, 5, 5, 2, 3, 1, 2] 0 (Box.mk 0 0 5 5)) ∈
      (predict (PredictorConfig.mk ["NILM", "ASC-US", "ASC-H", "LSIL", "HSIL", "SCC"] 1
          [("NILM", 1)]) id
        [RawBox.mk 2 [0, 0, 5, 5, 2, 3, 1, 2] 0 (Box.mk 0 0 5 5)]).detections := by
  refine (predict_never_rejects_on_shape _ id _).2 _ (List.mem_singleton.2 rfl) ?_
  norm_num

/-- C3 counterexample: a raw detection whose class-score tail has length 3
while six classes are known is not rejected and raises nothing: predict
still emits one ClassDecision for it. -/
theorem shape_mismatch_coerced_counterexample :
    ((RawBox.mk 2 [0, 0, 5, 5, 2, 3, 1, 2] 0 (Box.mk 0 0 5 5)).data.drop 5).length = 3 ∧
    (PredictorConfig.mk ["NILM", "ASC-US", "ASC-H", "LSIL", "HSIL", "SCC"] 1
        [("NILM", 1)]).class_names.length = 6 ∧
    (predict (PredictorConfig.mk ["NILM", "ASC-US", "ASC-H", "LSIL", "HSIL", "SCC"] 1
        [("NILM", 1)]) id
      [RawBox.mk 2 [0, 0, 5, 5, 2, 3, 1, 2] 0 (Box.mk 0 0 5 5)]).detections.length = 1 := by
  refine ⟨rfl, rfl, ?_⟩
  simp only [predict, List.filterMap_cons, List.filterMap_nil]
  rw [if_neg (by norm_num : ¬(2 : ℚ) < 1)]
  rfl

/-- C8: in every per-class metrics record, precision is tp/(tp+fp), recall is
tp/(tp+fn), each 0 when its denominator is 0, and f1 is 2PR/(P+R), 0 when
P+R is 0. -/
theorem detection_metrics_formulas (class_names : List String)
    (predictions : List ImagePred) (ground_truth : List ImageGT)
    (iou_threshold : ℚ) (m : String × ClassMetrics)
    (hm : m ∈ calculate_detection_metrics class_names predictions ground_truth
      iou_threshold) :
    (m.2.precision =
      if 0 < m.2.tp + m.2.fp then (m.2.tp : ℚ) / ((m.2.tp : ℚ) + (m.2.fp : ℚ)) else 0) ∧
    (m.2.recall' =
      if 0 < m.2.tp + m.2.fn then (m.2.tp : ℚ) / ((m.2.tp : ℚ) + (m.2.fn : ℚ)) else 0) ∧
    (m.2.f1 =
      if 0 < m.2.precision + m.2.recall' then
        2 * (m.2.precision * m.2.recall') / (m.2.precision + m.2.recall')
      else 0) := by
  simp only [calculate_detection_metrics] at hm
  rcases List.mem_map.1 hm with ⟨e, _he, rfl⟩
  exact ⟨rfl, rfl, rfl⟩

/-- C8 witness: the formulas instantiated on a concrete empty batch with one
class. -/
theorem detection_metrics_formulas_witness :
    ("A", ClassMetrics.mk 0 0 0 0 0 0).2.precision =
      (if 0 < ("A", ClassMetrics.mk 0 0 0 0 0 0).2.tp +
          ("A", ClassMetrics.mk 0 0 0 0 0 0).2.fp then
        (("A", ClassMetrics.mk 0 0 0 0 0 0).2.tp : ℚ) /
          ((("A", ClassMetrics.mk 0 0 0 0 0 0).2.tp : ℚ) +
            (("A", ClassMetrics.mk 0 0 0 0 0 0).2.fp : ℚ))
      else 0) := by
  have hmem : ("A", ClassMetrics.mk 0 0 0 0 0 0) ∈
      calculate_detection_metrics ["A"] [] [] 1 := by
    rw [show calculate_detection_metrics ["A"] [] [] 1 =
      [("A", ClassMetrics.mk 0 0 0 0 0 0)] from by
        simp [calculate_detection_metrics, batch_counters, List.enum]]
    exact List.mem_singleton.2 rfl
  exact (detection_metrics_formulas ["A"] [] [] 1 _ hmem).1

lemma best_match_fold (pb : Box) (pc : ℕ) (matched : List ℕ)
    (l : List (ℕ × Box × ℕ)) :
    ∀ st : ℚ × ℤ,
      (l.foldl (best_match_step pb pc matched) st = st ∨
        ∃ e ∈ l, (e.1 ∉ matched ∧ pc = e.2.2) ∧
          l.foldl (best_match_step pb pc matched) st =
            (calculate_iou pb e.2.1, (e.1 : ℤ)) ∧
          st.1 < calculate_iou pb e.2.1) ∧
      st.1 ≤ (l.foldl (best_match_step pb pc matched) st).1 ∧
      ∀ e ∈ l, (e.1 ∉ matched ∧ pc = e.2.2) →
        calculate_iou pb e.2.1 ≤ (l.foldl (best_match_step pb pc matched) st).1 := by
  induction l with
  | nil =>
    intro st
    exact ⟨Or.inl rfl, le_refl _, fun e he => absurd he (List.not_mem_nil e)⟩
  | cons a rest ih =>
    intro st
    rw [List.foldl_cons]
    by_cases hmem : a.1 ∈ matched
    · have hstep : best_match_step pb pc matched st a = st := by
        simp [best_match_step, hmem]
      rw [hstep]
      obtain ⟨j1, j2, j3⟩ := ih st
      refine ⟨?_, j2, ?_⟩
      · rcases j1 with h | ⟨e, he, hc, heq, hlt⟩
        · exact Or.inl h
        · exact Or.inr ⟨e, List.mem_cons_of_mem a he, hc, heq, hlt⟩
      · intro e he hc
        rcases List.mem_cons.1 he with rfl | he'
        · exact absurd hmem hc.1
        · exact j3 e he' hc
    · by_cases hcls : pc ≠ a.2.2
      · have hstep : best_match_step pb pc matched st a = st := by
          simp [best_match_step, hmem, hcls]
        rw [hstep]
        obtain ⟨j1, j2, j3⟩ := ih st
        refine ⟨?_, j2, ?_⟩
        · rcases j1 with h | ⟨e, he, hc, heq, hlt⟩
          · exact Or.inl h
          · exact Or.inr ⟨e, List.mem_cons_of_mem a he, hc, heq, hlt⟩
        · intro e he hc
          rcases List.mem_cons.1 he with rfl | he'
          · exact absurd hc.2 hcls
          · exact j3 e he' hc
      · push_neg at hcls
        by_cases hlt : st.1 < calculate_iou pb a.2.1
        · have hstep : best_match_step pb pc matched st a =
              (calculate_iou pb a.2.1, (a.1 : ℤ)) := by
            simp [best_match_step, hmem, hcls, hlt]
          rw [hstep]
          obtain ⟨j1, j2, j3⟩ := ih (calculate_iou pb a.2.1, (a.1 : ℤ))
          refine ⟨?_, le_trans (le_of_lt hlt) j2, ?_⟩
          · rcases j1 with h | ⟨e, he, hc, heq, hlt2⟩
            · exact Or.inr ⟨a, List.mem_cons_self a rest, ⟨hmem, hcls⟩, h, hlt⟩
            · exact Or.inr ⟨e, List.mem_cons_of_mem a he, hc, heq, lt_trans hlt hlt2⟩
          · intro e he hc
            rcases List.mem_cons.1 he with rfl | he'
            · exact j2
            · exact j3 e he' hc
        · have hstep : best_match_step pb pc matched st a = st := by
            simp [best_match_step, hmem, hcls, hlt]
          rw [hstep]
          obtain ⟨j1, j2, j3⟩ := ih st
          refine ⟨?_, j2, ?_⟩
          · rcases j1 with h | ⟨e, he, hc, heq, hlt2⟩
            · exact Or.inl h
            · exact Or.inr ⟨e, List.mem_cons_of_mem a he, hc, heq, hlt2⟩
          · intro e he hc
            rcases List.mem_cons.1 he with rfl | he'
            · exact le_trans (le_of_not_lt hlt) j2
            · exact j3 e he' hc

lemma best_match_spec (pb : Box) (pc : ℕ) (gts : List (Box × ℕ)) (matched : List ℕ) :
    0 ≤ (best_match pb pc gts matched).1 ∧
    ((best_match pb pc gts matched).2 = -1 → (best_match pb pc gts matched).1 = 0) ∧
    ((best_match pb pc gts matched).2 ≠ -1 →
      ∃ j b, (j, (b, pc)) ∈ gts.enum ∧ j ∉ matched ∧
        best_match pb pc gts matched = (calculate_iou pb b, (j : ℤ)) ∧
        0 < calculate_iou pb b) ∧
    ∀ j b, (j, (b, pc)) ∈ gts.enum → j ∉ matched →
      calculate_iou pb b ≤ (best_match pb pc gts matched).1 := by
  obtain ⟨h1, h2, h3⟩ := best_match_fold pb pc matched gts.enum (0, -1)
  refine ⟨h2, ?_, ?_, fun j b hjb hjm => h3 (j, b, pc) hjb ⟨hjm, rfl⟩⟩
  · intro hneg
    rcases h1 with h | ⟨e, _he, _hc, heq, _hlt⟩
    · rw [show best_match pb pc gts matched =
        gts.enum.foldl (best_match_step pb pc matched) (0, -1) from rfl, h]
    · exfalso
      rw [show best_match pb pc gts matched =
        gts.enum.foldl (best_match_step pb pc matched) (0, -1) from rfl, heq] at hneg
      have h0 : (0 : ℤ) ≤ (e.1 : ℤ) := Int.natCast_nonneg e.1
      omega
  · intro hpos
    rcases h1 with h | ⟨e, he, hc, heq, hlt⟩
    · exfalso
      apply hpos
      rw [show best_match pb pc gts matched =
        gts.enum.foldl (best_match_step pb pc matched) (0, -1) from rfl, h]
    · obtain ⟨hc1, hc2⟩ := hc
      subst hc2
      exact ⟨e.1, e.2.1, he, hc1, heq, hlt⟩

lemma match_step_some (iou_threshold : ℚ) (gts : List (Box × ℕ)) (matched : List ℕ)
    (pb : Box) (pc : ℕ) (j : ℕ)
    (h : match_step iou_threshold gts matched pb pc = some j) :
    ∃ b, (j, (b, pc)) ∈ gts.enum ∧ j ∉ matched ∧
      iou_threshold ≤ calculate_iou pb b ∧ 0 < calculate_iou pb b ∧
      ∀ j2 b2, (j2, (b2, pc)) ∈ gts.enum → j2 ∉ matched →
        calculate_iou pb b2 ≤ calculate_iou pb b := by
  obtain ⟨_hs1, _hs2, hs3, hs4⟩ := best_match_spec pb pc gts matched
  simp only [match_step] at h
  split_ifs at h with hcond
  obtain ⟨j0, b, hmem, hm, heq, hpos⟩ := hs3 hcond.2
  have hj : j = j0 := by
    have hs := Option.some.inj h
    rw [heq] at hs
    simpa using hs.symm
  subst hj
  refine ⟨b, hmem, hm, ?_, hpos, ?_⟩
  · have hc1 := hcond.1
    rw [heq] at hc1
    exact hc1
  · intro j2 b2 h2 hm2
    have hub := hs4 j2 b2 h2 hm2
    rw [heq] at hub
    exact hub

lemma match_step_none (iou_threshold : ℚ) (gts : List (Box × ℕ)) (matched : List ℕ)
    (pb : Box) (pc : ℕ) (hthr : 0 < iou_threshold)
    (h : match_step iou_threshold gts matched pb pc = none) :
    ∀ j b, (j, (b, pc)) ∈ gts.enum → j ∉ matched →
      calculate_iou pb b < iou_threshold := by
  obtain ⟨_hs1, hs2, _hs3, hs4⟩ := best_match_spec pb pc gts matched
  simp only [match_step] at h
  split_ifs at h with hcond
  intro j b hjb hjm
  have hub := hs4 j b hjb hjm
  rcases not_and_or.1 hcond with hc1 | hc2
  · exact lt_of_le_of_lt hub (lt_of_not_le hc1)
  · push_neg at hc2
    rw [hs2 hc2] at hub
    exact lt_of_le_of_lt hub hthr

lemma enumFrom_filter_snd (c : ℕ) :
    ∀ (cl : List ℕ) (n : ℕ),
      ((List.enumFrom n cl).filter (fun e => decide (e.2 = c))).length =
      (cl.filter (fun x => decide (x = c))).length := by
  intro cl
  induction cl with
  | nil => intro n; rfl
  | cons a rest ih =>
    intro n
    rw [List.enumFrom_cons, List.filter_cons, List.filter_cons]
    by_cases hac : a = c
    · rw [if_pos (by simpa using hac), if_pos (by simpa using hac)]
      simp only [List.length_cons, ih (n + 1)]
    · rw [if_neg (by simpa using hac), if_neg (by simpa using hac)]
      exact ih (n + 1)

lemma fn_stable_aux (c j : ℕ) (m : List ℕ) :
    ∀ (cl : List ℕ) (n : ℕ), j < n →
      ((List.enumFrom n cl).filter
        (fun e => decide (e.1 ∉ j :: m) && decide (e.2 = c))).length =
      ((List.enumFrom n cl).filter
        (fun e => decide (e.1 ∉ m) && decide (e.2 = c))).length := by
  intro cl
  induction cl with
  | nil => intro n _; rfl
  | cons a rest ih =>
    intro n hj
    have hne : n ≠ j := Nat.ne_of_gt hj
    rw [List.enumFrom_cons, List.filter_cons, List.filter_cons]
    have hhead : (decide ((n, a).1 ∉ j :: m) && decide ((n, a).2 = c)) =
        (decide ((n, a).1 ∉ m) && decide ((n, a).2 = c)) := by
      have hiff : ((n, a).1 ∉ j :: m) ↔ ((n, a).1 ∉ m) := by
        simp only [List.mem_cons]
        constructor
        · intro h hn
          exact h (Or.inr hn)
        · intro h hor
          rcases hor with h1 | h1
          · exact hne h1
          · exact h h1
      rw [decide_eq_decide.2 hiff]
    rw [hhead, apply_ite List.length, apply_ite List.length]
    simp only [List.length_cons]
    rw [ih (n + 1) (by omega)]

lemma fn_insert_aux (c : ℕ) :
    ∀ (cl : List ℕ) (n j pc : ℕ) (m : List ℕ),
      (j, pc) ∈ List.enumFrom n cl → j ∉ m →
      ((List.enumFrom n cl).filter
        (fun e => decide (e.1 ∉ m) && decide (e.2 = c))).length =
      ((List.enumFrom n cl).filter
        (fun e => decide (e.1 ∉ j :: m) && decide (e.2 = c))).length +
      (if pc = c then 1 else 0) := by
  intro cl
  induction cl with
  | nil => intro n j pc m hmem _; exact absurd hmem (List.not_mem_nil _)
  | cons a rest ih =>
    intro n j pc m hmem hjm
    rw [List.enumFrom_cons] at hmem ⊢
    rw [List.filter_cons, List.filter_cons]
    by_cases hjn : j = n
    · subst hjn
      have hpa : pc = a := by
        rcases List.mem_cons.1 hmem with h | h
        · exact (Prod.ext_iff.1 h).2
        · have hle := (List.mk_mem_enumFrom_iff_le_and_getElem?_sub.1 h).1
          omega
      rw [hpa]
      have hl : (decide ((j, a).1 ∉ m) && decide ((j, a).2 = c)) = decide (a = c) := by
        simp [hjm]
      have hr : (decide ((j, a).1 ∉ j :: m) && decide ((j, a).2 = c)) = false := by
        simp [List.mem_cons]
      rw [hl, hr, if_neg (show ¬(false = true) from by simp),
        fn_stable_aux c j m rest (j + 1) (by omega)]
      by_cases hac : a = c
      · rw [if_pos (by simpa using hac), if_pos (by simpa using hac)]
        simp only [List.length_cons]
      · rw [if_neg (by simpa using hac), if_neg (by simpa using hac)]
        omega
    · have htail : (j, pc) ∈ List.enumFrom (n + 1) rest := by
        rcases List.mem_cons.1 hmem with h | h
        · exact absurd (Prod.ext_iff.1 h).1 hjn
        · exact h
      have hhead : (decide ((n, a).1 ∉ j :: m) && decide ((n, a).2 = c)) =
          (decide ((n, a).1 ∉ m) && decide ((n, a).2 = c)) := by
        have hiff : ((n, a).1 ∉ j :: m) ↔ ((n, a).1 ∉ m) := by
          simp only [List.mem_cons]
          constructor
          · intro h hn
            exact h (Or.inr hn)
          · intro h hor
            rcases hor with h1 | h1
            · exact hjn h1.symm
            · exact h h1
        rw [decide_eq_decide.2 hiff]
      rw [hhead, apply_ite List.length, apply_ite List.length]
      simp only [List.length_cons]
      rw [ih (n + 1) j pc m htail hjm]
      by_cases hcnd : (decide ((n, a).1 ∉ m) && decide ((n, a).2 = c)) = true
      · rw [if_pos hcnd, if_pos hcnd]
        omega
      · rw [if_neg hcnd, if_neg hcnd]

lemma match_preds_length (thr : ℚ) (gts : List (Box × ℕ)) :
    ∀ (ps : List (Box × ℕ)) (m : List ℕ),
      (match_preds thr gts ps m).length = ps.length := by
  intro ps
  induction ps with
  | nil => intro m; rfl
  | cons p rest ih =>
    intro m
    obtain ⟨pb, pc⟩ := p
    cases hstep : match_step thr gts m pb pc with
    | none => simp [match_preds, hstep, ih]
    | some j => simp [match_preds, hstep, ih]

lemma match_preds_matched_spec (thr : ℚ) (gts : List (Box × ℕ)) :
    ∀ (ps : List (Box × ℕ)) (m : List ℕ),
      ((match_preds thr gts ps m).filterMap id).Nodup ∧
      ∀ j ∈ (match_preds thr gts ps m).filterMap id,
        j ∉ m ∧ ∃ bx, (j, bx) ∈ gts.enum := by
  intro ps
  induction ps with
  | nil =>
    intro m
    exact ⟨List.nodup_nil, by simp [match_preds]⟩
  | cons p rest ih =>
    intro m
    obtain ⟨pb, pc⟩ := p
    cases hstep : match_step thr gts m pb pc with
    | none =>
      have hrw : match_preds thr gts ((pb, pc) :: rest) m =
          none :: match_preds thr gts rest m := by
        simp [match_preds, hstep]
      rw [hrw]
      simpa using ih m
    | some j =>
      have hrw : match_preds thr gts ((pb, pc) :: rest) m =
          some j :: match_preds thr gts rest (j :: m) := by
        simp [match_preds, hstep]
      rw [hrw]
      obtain ⟨hnd, hmem⟩ := ih (j :: m)
      obtain ⟨b, hbmem, hjm, _⟩ := match_step_some thr gts m pb pc j hstep
      have hfm : (some j :: match_preds thr gts rest (j :: m)).filterMap id =
          j :: (match_preds thr gts rest (j :: m)).filterMap id := by simp
      rw [hfm]
      constructor
      · refine List.nodup_cons.2 ⟨?_, hnd⟩
        intro hj
        exact (hmem j hj).1 (List.mem_cons_self j m)
      · intro x hx
        rcases List.mem_cons.1 hx with rfl | hx'
        · exact ⟨hjm, (b, pc), hbmem⟩
        · obtain ⟨hx1, hx2⟩ := hmem x hx'
          exact ⟨fun hxm => hx1 (List.mem_cons_of_mem j hxm), hx2⟩

lemma match_run_conservation (thr : ℚ) (gts : List (Box × ℕ)) (cl : List ℕ) (c : ℕ)
    (hcl : ∀ j x, (j, x) ∈ gts.enum → (j, x.2) ∈ cl.enum) :
    ∀ (ps : List (Box × ℕ)) (m : List ℕ),
      ((ps.zip (match_preds thr gts ps m)).filter
          (fun e => decide (e.1.2 = c) && e.2.isSome)).length +
        (cl.enum.filter (fun e =>
          decide (e.1 ∉ ((match_preds thr gts ps m).filterMap id ++ m)) &&
          decide (e.2 = c))).length =
      (cl.enum.filter (fun e => decide (e.1 ∉ m) && decide (e.2 = c))).length := by
  intro ps
  induction ps with
  | nil =>
    intro m
    simp [match_preds]
  | cons p rest ih =>
    intro m
    obtain ⟨pb, pc⟩ := p
    cases hstep : match_step thr gts m pb pc with
    | none =>
      have hrw : match_preds thr gts ((pb, pc) :: rest) m =
          none :: match_preds thr gts rest m := by
        simp [match_preds, hstep]
      rw [hrw, List.zip_cons_cons, List.filter_cons]
      rw [if_neg (show ¬((decide (((pb, pc), (none : Option ℕ)).1.2 = c) &&
        ((pb, pc), (none : Option ℕ)).2.isSome) = true) from by simp)]
      have hfm : (none :: match_preds thr gts rest m).filterMap id =
          (match_preds thr gts rest m).filterMap id := by simp
      rw [hfm]
      exact ih m
    | some j =>
      have hrw : match_preds thr gts ((pb, pc) :: rest) m =
          some j :: match_preds thr gts rest (j :: m) := by
        simp [match_preds, hstep]
      rw [hrw, List.zip_cons_cons, List.filter_cons]
      have hfm : (some j :: match_preds thr gts rest (j :: m)).filterMap id =
          j :: (match_preds thr gts rest (j :: m)).filterMap id := by simp
      rw [hfm]
      obtain ⟨b, hbmem, hjm, _hthr2, _hpos, _hub⟩ := match_step_some thr gts m pb pc j hstep
      have hjcl : (j, pc) ∈ cl.enum := hcl j (b, pc) hbmem
      have hcongr : (cl.enum.filter (fun e =>
            decide (e.1 ∉ ((j :: (match_preds thr gts rest (j :: m)).filterMap id) ++ m)) &&
            decide (e.2 = c))).length =
          (cl.enum.filter (fun e =>
            decide (e.1 ∉ ((match_preds thr gts rest (j :: m)).filterMap id ++ (j :: m))) &&
            decide (e.2 = c))).length := by
        apply congrArg List.length
        apply List.filter_congr
        intro e _
        congr 1
        apply decide_eq_decide.2
        apply not_congr
        simp only [List.mem_append, List.mem_cons]
        tauto
      have hins := fn_insert_aux c cl 0 j pc m (by exact hjcl) hjm
      have hih := ih (j :: m)
      by_cases hpcc : pc = c
      · rw [if_pos (show ((decide (((pb, pc), some j).1.2 = c) &&
          ((pb, pc), some j).2.isSome) = true) from by simp [hpcc])]
        rw [List.length_cons, hcongr]
        rw [if_pos hpcc] at hins
        have henum : cl.enum = List.enumFrom 0 cl := rfl
        rw [henum] at hih hcongr ⊢
        omega
      · rw [if_neg (show ¬((decide (((pb, pc), some j).1.2 = c) &&
          ((pb, pc), some j).2.isSome) = true) from by simp [hpcc])]
        rw [hcongr]
        rw [if_neg hpcc] at hins
        have henum : cl.enum = List.enumFrom 0 cl := rfl
        rw [henum] at hih ⊢
        omega

lemma zip_enum_to_classes (gt : ImageGT) :
    ∀ (j : ℕ) (x : Box × ℕ), (j, x) ∈ (gt.boxes.zip gt.classes).enum →
      (j, x.2) ∈ gt.classes.enum := by
  intro j x hmem
  obtain ⟨xb, xc⟩ := x
  rw [List.mk_mem_enum_iff_getElem?] at hmem ⊢
  exact ((List.getElem?_zip_eq_some).1 hmem).2

lemma image_conservation (thr : ℚ) (pred : ImagePred) (gt : ImageGT) (c : ℕ) :
    image_tp thr pred gt c + image_fn thr pred gt c =
      (gt.classes.filter (fun x => decide (x = c))).length := by
  have h := match_run_conservation thr (gt.boxes.zip gt.classes) gt.classes c
    (zip_enum_to_classes gt) (sorted_pred_list pred) []
  simp only [List.append_nil] at h
  have hrhs : (gt.classes.enum.filter
      (fun e => decide (e.1 ∉ ([] : List ℕ)) && decide (e.2 = c))).length =
      (gt.classes.filter (fun x => decide (x = c))).length := by
    have hcg : ∀ e ∈ gt.classes.enum,
        (decide (e.1 ∉ ([] : List ℕ)) && decide (e.2 = c)) = decide (e.2 = c) := by
      intro e _
      simp
    rw [List.filter_congr hcg]
    exact enumFrom_filter_snd c gt.classes 0
  rw [hrhs] at h
  exact h

lemma fn_matched_split (cl : List ℕ) (c : ℕ) :
    ∀ (m : List ℕ), m.Nodup → (∀ j ∈ m, ∃ x, (j, x) ∈ cl.enum) →
      (cl.enum.filter (fun e => decide (e.1 ∉ m) && decide (e.2 = c))).length +
        (m.filter (fun j => decide (cl.getD j 0 = c))).length =
      (cl.filter (fun x => decide (x = c))).length := by
  intro m
  induction m with
  | nil =>
    intro _ _
    have hcg : ∀ e ∈ cl.enum,
        (decide (e.1 ∉ ([] : List ℕ)) && decide (e.2 = c)) = decide (e.2 = c) := by
      intro e _
      simp
    rw [List.filter_nil, List.length_nil, Nat.add_zero, List.filter_congr hcg]
    exact enumFrom_filter_snd c cl 0
  | cons j m' ih =>
    intro hnd hval
    obtain ⟨x, hx⟩ := hval j (List.mem_cons_self j m')
    have hgd : cl.getD j 0 = x := by
      have hg := List.mk_mem_enum_iff_getElem?.1 hx
      rw [List.getD_eq_getElem?_getD, hg]
      rfl
    have hjm' : j ∉ m' := (List.nodup_cons.1 hnd).1
    have hins := fn_insert_aux c cl 0 j x m' hx hjm'
    have hih := ih (List.nodup_cons.1 hnd).2 (fun i hi => hval i (List.mem_cons_of_mem j hi))
    rw [List.filter_cons]
    have henum : cl.enum = List.enumFrom 0 cl := rfl
    rw [henum] at hih ⊢
    by_cases hxc : x = c
    · rw [if_pos (show decide (cl.getD j 0 = c) = true from by
        simp only [decide_eq_true_eq]; rw [hgd]; exact hxc), List.length_cons]
      rw [if_pos hxc] at hins
      omega
    · rw [if_neg (show ¬(decide (cl.getD j 0 = c) = true) from by
        simp only [decide_eq_true_eq]; rw [hgd]; exact hxc)]
      rw [if_neg hxc] at hins
      omega

lemma batch_counters_tp_fn (thr : ℚ) :
    ∀ (l : List (ImagePred × ImageGT)) (acc : (ℕ → ℕ) × (ℕ → ℕ) × (ℕ → ℕ)) (c : ℕ),
      (l.foldl (batch_step thr) acc).1 c =
        acc.1 c + (l.map (fun pg => image_tp thr pg.1 pg.2 c)).sum ∧
      (l.foldl (batch_step thr) acc).2.2 c =
        acc.2.2 c + (l.map (fun pg => image_fn thr pg.1 pg.2 c)).sum := by
  intro l
  induction l with
  | nil => intro acc c; simp
  | cons pg rest ih =>
    intro acc c
    rw [List.foldl_cons]
    obtain ⟨h1, h2⟩ := ih (batch_step thr acc pg) c
    simp only [List.map_cons, List.sum_cons]
    constructor
    · rw [h1]
      simp only [batch_step]
      omega
    · rw [h2]
      simp only [batch_step]
      omega

lemma sum_zip_conservation (thr : ℚ) (c : ℕ) :
    ∀ (ps : List ImagePred) (gs : List ImageGT), ps.length = gs.length →
      ((ps.zip gs).map (fun pg => image_tp thr pg.1 pg.2 c)).sum +
        ((ps.zip gs).map (fun pg => image_fn thr pg.1 pg.2 c)).sum =
      (gs.map (fun g => (g.classes.filter (fun x => decide (x = c))).length)).sum := by
  intro ps
  induction ps with
  | nil =>
    intro gs hlen
    cases gs with
    | nil => simp
    | cons g gs' => simp at hlen
  | cons p ps' ih =>
    intro gs hlen
    cases gs with
    | nil => simp at hlen
    | cons g gs' =>
      rw [List.zip_cons_cons]
      simp only [List.map_cons, List.sum_cons]
      have hc := image_conservation thr p g c
      have hih := ih gs' (by simpa using hlen)
      omega

/-- C10: per class, the batch counters satisfy tp[c] + fn[c] = total number
of ground-truth boxes of class c across the batch: each ground-truth box is
either the match of one same-class true positive or exactly one false
negative. -/
theorem tp_fn_conservation (iou_threshold : ℚ) (predictions : List ImagePred)
    (ground_truth : List ImageGT)
    (hlen : predictions.length = ground_truth.length) (c : ℕ) :
    (batch_counters iou_threshold predictions ground_truth).1 c +
      (batch_counters iou_threshold predictions ground_truth).2.2 c =
    total_gt_count ground_truth c := by
  obtain ⟨h1, h2⟩ := batch_counters_tp_fn iou_threshold
    (predictions.zip ground_truth) (fun _ => 0, fun _ => 0, fun _ => 0) c
  simp only [batch_counters]
  rw [h1, h2]
  have hs := sum_zip_conservation iou_threshold c predictions ground_truth hlen
  simpa [total_gt_count] using hs

/-- C10 witness: the conservation law on a concrete one-image batch with an
unmatched ground-truth box of class 1. -/
theorem tp_fn_conservation_witness :
    ([ImagePred.mk [Box.mk 0 0 10 10] [0] [1]] : List ImagePred).length =
      ([ImageGT.mk [Box.mk 0 0 10 10, Box.mk 20 20 30 30] [0, 1]] : List ImageGT).length ∧
    (batch_counters (1 / 2) [ImagePred.mk [Box.mk 0 0 10 10] [0] [1]]
        [ImageGT.mk [Box.mk 0 0 10 10, Box.mk 20 20 30 30] [0, 1]]).1 1 +
      (batch_counters (1 / 2) [ImagePred.mk [Box.mk 0 0 10 10] [0] [1]]
        [ImageGT.mk [Box.mk 0 0 10 10, Box.mk 20 20 30 30] [0, 1]]).2.2 1 =
    total_gt_count [ImageGT.mk [Box.mk 0 0 10 10, Box.mk 20 20 30 30] [0, 1]] 1 :=
  ⟨rfl, tp_fn_conservation (1 / 2) _ _ rfl 1⟩

/-- C4: the per-image greedy matching emits exactly one outcome per
prediction, never claims a ground-truth box twice, turns a prediction into a
true positive exactly when some (equivalently, the best) unmatched same-class
ground-truth box reaches the IoU threshold, marks the claimed best box
matched for the rest of the run, and counts every still-unmatched
ground-truth box as exactly one false negative of its class. -/
theorem greedy_matching_one_to_one (iou_threshold : ℚ) (hthr : 0 < iou_threshold)
    (pred : ImagePred) (gt : ImageGT) :
    (image_outcomes iou_threshold pred gt).length = (sorted_pred_list pred).length ∧
    (image_matched iou_threshold pred gt).Nodup ∧
    (∀ (m : List ℕ) (pb : Box) (pc : ℕ),
      ((∃ j, match_step iou_threshold (gt.boxes.zip gt.classes) m pb pc = some j) ↔
        (∃ j b, (j, (b, pc)) ∈ (gt.boxes.zip gt.classes).enum ∧ j ∉ m ∧
          iou_threshold ≤ calculate_iou pb b)) ∧
      (∀ j, match_step iou_threshold (gt.boxes.zip gt.classes) m pb pc = some j →
        ∃ b, (j, (b, pc)) ∈ (gt.boxes.zip gt.classes).enum ∧ j ∉ m ∧
          iou_threshold ≤ calculate_iou pb b ∧
          ∀ j2 b2, (j2, (b2, pc)) ∈ (gt.boxes.zip gt.classes).enum → j2 ∉ m →
            calculate_iou pb b2 ≤ calculate_iou pb b) ∧
      (∀ (ps : List (Box × ℕ)) (j : ℕ),
        match_step iou_threshold (gt.boxes.zip gt.classes) m pb pc = some j →
        match_preds iou_threshold (gt.boxes.zip gt.classes) ((pb, pc) :: ps) m =
          some j :: match_preds iou_threshold (gt.boxes.zip gt.classes) ps (j :: m))) ∧
    (∀ c, image_fn iou_threshold pred gt c +
        ((image_matched iou_threshold pred gt).filter
          (fun j => decide (gt.classes.getD j 0 = c))).length =
      (gt.classes.filter (fun x => decide (x = c))).length) := by
  obtain ⟨hnd, hval⟩ := match_preds_matched_spec iou_threshold
    (gt.boxes.zip gt.classes) (sorted_pred_list pred) []
  refine ⟨match_preds_length iou_threshold (gt.boxes.zip gt.classes)
      (sorted_pred_list pred) [], hnd, ?_, ?_⟩
  · intro m pb pc
    refine ⟨⟨?_, ?_⟩, ?_, ?_⟩
    · rintro ⟨j, hj⟩
      obtain ⟨b, hmem, hjm, hiou, _, _⟩ :=
        match_step_some iou_threshold (gt.boxes.zip gt.classes) m pb pc j hj
      exact ⟨j, b, hmem, hjm, hiou⟩
    · rintro ⟨j, b, hmem, hjm, hiou⟩
      cases hj : match_step iou_threshold (gt.boxes.zip gt.classes) m pb pc with
      | none =>
        exact absurd hiou (not_le.2 (match_step_none iou_threshold
          (gt.boxes.zip gt.classes) m pb pc hthr hj j b hmem hjm))
      | some j2 => exact ⟨j2, rfl⟩
    · intro j hj
      obtain ⟨b, hmem, hjm, hiou, _, hub⟩ :=
        match_step_some iou_threshold (gt.boxes.zip gt.classes) m pb pc j hj
      exact ⟨b, hmem, hjm, hiou, hub⟩
    · intro ps j hj
      simp [match_preds, hj]
  · intro c
    exact fn_matched_split gt.classes c (image_matched iou_threshold pred gt) hnd
      (fun j hjm => by
        obtain ⟨_, bx, hbx⟩ := hval j hjm
        exact ⟨bx.2, zip_enum_to_classes gt j bx hbx⟩)

/-- C4 witness: the matching properties on a concrete one-prediction,
one-box image at IoU threshold 0.5. -/
theorem greedy_matching_one_to_one_witness :
    (0 : ℚ) < 1 / 2 ∧
    (image_matched (1 / 2) (ImagePred.mk [Box.mk 0 0 10 10] [0] [1])
      (ImageGT.mk [Box.mk 0 0 10 10] [0])).Nodup :=
  ⟨by norm_num, (greedy_matching_one_to_one (1 / 2) (by norm_num)
    (ImagePred.mk [Box.mk 0 0 10 10] [0] [1])
    (ImageGT.mk [Box.mk 0 0 10 10] [0])).2.1⟩

/-- C5 (amended): the returned mAP at a single IoU threshold is the mean of
per-class AP over ALL known classes (denominator = number of classes); a
class with zero ground-truth instances contributes AP = 0 to the sum but
stays in the denominator. -/
theorem map_averages_all_classes (num_classes : ℕ) (hnc : 0 < num_classes)
    (predictions : List ImagePred) (ground_truth : List ImageGT) (th : ℚ) :
    calculate_map num_classes predictions ground_truth [th] =
      ((List.range num_classes).map (fun cid =>
        calculate_ap_for_class predictions ground_truth cid th)).sum /
        (num_classes : ℚ) ∧
    ∀ cid, total_gt_count ground_truth cid = 0 →
      calculate_ap_for_class predictions ground_truth cid th = 0 := by
  constructor
  · simp only [calculate_map, List.map_cons, List.map_nil, List.headD_cons, listMean,
      List.length_map, List.length_range]
  · intro cid h0
    simp only [calculate_ap_for_class]
    split_ifs with h1 h2 <;> first
      | rfl
      | exact absurd h0 h2

/-- C5 witness: the amended statement on a concrete two-class batch where
only class 0 has ground truth. -/
theorem map_averages_all_classes_witness :
    0 < 2 ∧
    total_gt_count [ImageGT.mk [Box.mk 0 0 10 10] [0]] 1 = 0 ∧
    calculate_ap_for_class [ImagePred.mk [Box.mk 0 0 10 10] [0] [1]]
      [ImageGT.mk [Box.mk 0 0 10 10] [0]] 1 (1 / 2) = 0 :=
  ⟨by decide, by decide,
    (map_averages_all_classes 2 (by decide) [ImagePred.mk [Box.mk 0 0 10 10] [0] [1]]
      [ImageGT.mk [Box.mk 0 0 10 10] [0]] (1 / 2)).2 1 (by decide)⟩

lemma ap_11point_single_full (p : ℚ) : ap_11point [(p, 1)] = p := by
  have hone : ∀ k : ℕ, k ≤ 10 →
      (((([((p : ℚ), (1 : ℚ))].filter
        (fun e => decide ((k : ℚ) / 10 ≤ e.2))).map Prod.fst).max?.getD 0) / 11) =
      p / 11 := by
    intro k hk
    have ht : ((k : ℚ) / 10 ≤ 1) := by
      rw [div_le_one (by norm_num)]
      exact_mod_cast le_trans (Nat.cast_le.2 hk) (by norm_num)
    rw [List.filter_cons, if_pos (by simpa using ht), List.filter_nil]
    rfl
  unfold ap_11point
  rw [show List.range 11 = [0, 1, 2, 3, 4, 5, 6, 7, 8, 9, 10] from rfl]
  simp only [List.map_cons, List.map_nil]
  rw [hone 0 (by norm_num), hone 1 (by norm_num), hone 2 (by norm_num),
    hone 3 (by norm_num), hone 4 (by norm_num), hone 5 (by norm_num),
    hone 6 (by norm_num), hone 7 (by norm_num), hone 8 (by norm_num),
    hone 9 (by norm_num), hone 10 (by norm_num)]
  simp only [List.sum_cons, List.sum_nil]
  ring

theorem map_counts_zero_gt_class_counterexample :
    calculate_map 2 [ImagePred.mk [Box.mk 0 0 10 10] [0] [1]]
      [ImageGT.mk [Box.mk 0 0 10 10] [0]] [1 / 2] = 1 / 2 ∧
    map_over_gt_classes 2 [ImagePred.mk [Box.mk 0 0 10 10] [0] [1]]
      [ImageGT.mk [Box.mk 0 0 10 10] [0]] (1 / 2) = 1 ∧
    ((1 : ℚ) / 2) ≠ 1 := by
  have hiou : calculate_iou (Box.mk 0 0 10 10) (Box.mk 0 0 10 10) = 1 :=
    calculate_iou_self (Box.mk 0 0 10 10) (by norm_num) (by norm_num)
  have hbm : best_match (Box.mk 0 0 10 10) 0 [(Box.mk 0 0 10 10, 0)] [] =
      (1, 0) := by
    show List.foldl (best_match_step (Box.mk 0 0 10 10) 0 [])
      (0, -1) [(0, (Box.mk 0 0 10 10, 0))] = (1, 0)
    rw [List.foldl_cons, List.foldl_nil]
    simp [best_match_step, hiou]
  have hsweep : ap_sweep (1 / 2) 0 [ImageGT.mk [Box.mk 0 0 10 10] [0]] 1
      [(0, Box.mk 0 0 10 10, 1)] [] 0 0 = [(1, 1)] := by
    simp only [ap_sweep]
    rw [show best_match (Box.mk 0 0 10 10) 0
        (([ImageGT.mk [Box.mk 0 0 10 10] [0]].getD 0 (ImageGT.mk [] [])).boxes.zip
          ([ImageGT.mk [Box.mk 0 0 10 10] [0]].getD 0 (ImageGT.mk [] [])).classes)
        (List.filterMap (fun e => if e.1 = 0 then some e.2 else none)
          ([] : List (ℕ × ℕ))) =
      best_match (Box.mk 0 0 10 10) 0 [(Box.mk 0 0 10 10, 0)] [] from rfl, hbm]
    norm_num
  have hap0 : calculate_ap_for_class [ImagePred.mk [Box.mk 0 0 10 10] [0] [1]]
      [ImageGT.mk [Box.mk 0 0 10 10] [0]] 0 (1 / 2) = 1 := by
    simp only [calculate_ap_for_class]
    rw [if_neg (by decide), if_neg (by decide)]
    rw [show total_gt_count [ImageGT.mk [Box.mk 0 0 10 10] [0]] 0 = 1 from rfl,
      show sort_by_conf (preds_for_class
        [ImagePred.mk [Box.mk 0 0 10 10] [0] [1]] 0) =
        [(0, Box.mk 0 0 10 10, 1)] from rfl, hsweep, ap_11point_single_full]
  have hap1 : calculate_ap_for_class [ImagePred.mk [Box.mk 0 0 10 10] [0] [1]]
      [ImageGT.mk [Box.mk 0 0 10 10] [0]] 1 (1 / 2) = 0 := by
    simp only [calculate_ap_for_class]
    rw [if_pos (by decide)]
  refine ⟨?_, ?_, by norm_num⟩
  · simp only [calculate_map, List.map_cons, List.map_nil, List.headD_cons]
    rw [show List.range 2 = [0, 1] from rfl]
    simp only [List.map_cons, List.map_nil]
    rw [hap0, hap1]
    simp only [listMean, List.sum_cons, List.sum_nil, List.length_cons, List.length_nil]
    norm_num
  · simp only [map_over_gt_classes]
    rw [show (List.range 2).filter (fun cid => decide (0 < total_gt_count
        [ImageGT.mk [Box.mk 0 0 10 10] [0]] cid)) = [0] from by decide]
    simp only [List.map_cons, List.map_nil]
    rw [hap0]
    simp only [listMean, List.sum_cons, List.sum_nil, List.length_cons, List.length_nil]
    norm_num
